import Mathlib

/-!
Verification development for the Smart-play intraday trading repository.

The Python source computes with IEEE-754 doubles (pandas/numpy).  We embed
prices and indicator values as `PFloat`: a rational number together with the
three non-finite float values `inf`, `ninf` and `nan` (the source never
produces a negative zero on the paths modelled here, so signed zeros are not
distinguished).  Comparisons involving `nan` are false, as in IEEE-754; the
code relies on this (e.g. NaN indicator values silently disable signals).
-/

inductive PFloat where
  | num (q : ℚ)
  | inf
  | ninf
  | nan
deriving DecidableEq, Repr

namespace PFloat

/-- IEEE-style test for the NaN value. -/
def isNan : PFloat → Bool
  | nan => true
  | _ => false

/-- IEEE-style addition (no signed zeros). -/
def add : PFloat → PFloat → PFloat
  | nan, _ => nan
  | num _, nan => nan
  | inf, nan => nan
  | ninf, nan => nan
  | inf, ninf => nan
  | ninf, inf => nan
  | inf, num _ => inf
  | num _, inf => inf
  | inf, inf => inf
  | ninf, num _ => ninf
  | num _, ninf => ninf
  | ninf, ninf => ninf
  | num a, num b => num (a + b)

/-- IEEE-style negation. -/
def neg : PFloat → PFloat
  | num a => num (-a)
  | inf => ninf
  | ninf => inf
  | nan => nan

/-- IEEE-style subtraction. -/
def sub (x y : PFloat) : PFloat := add x (neg y)

/-- IEEE-style multiplication (no signed zeros). -/
def mul : PFloat → PFloat → PFloat
  | nan, _ => nan
  | num _, nan => nan
  | inf, nan => nan
  | ninf, nan => nan
  | num a, num b => num (a * b)
  | inf, num b => if b = 0 then nan else if 0 < b then inf else ninf
  | num b, inf => if b = 0 then nan else if 0 < b then inf else ninf
  | ninf, num b => if b = 0 then nan else if 0 < b then ninf else inf
  | num b, ninf => if b = 0 then nan else if 0 < b then ninf else inf
  | inf, inf => inf
  | inf, ninf => ninf
  | ninf, inf => ninf
  | ninf, ninf => inf

/-- IEEE-style division; a finite nonzero value divided by (positive) zero
gives a signed infinity, `0/0` gives NaN. -/
def div : PFloat → PFloat → PFloat
  | nan, _ => nan
  | num _, nan => nan
  | inf, nan => nan
  | ninf, nan => nan
  | num a, num b =>
      if b = 0 then (if a = 0 then nan else if 0 < a then inf else ninf)
      else num (a / b)
  | num _, inf => num 0
  | num _, ninf => num 0
  | inf, num b => if 0 ≤ b then inf else ninf
  | ninf, num b => if 0 ≤ b then ninf else inf
  | inf, inf => nan
  | inf, ninf => nan
  | ninf, inf => nan
  | ninf, ninf => nan

/-- IEEE-style strict comparison: any comparison with NaN is false. -/
def lt : PFloat → PFloat → Bool
  | nan, _ => false
  | _, nan => false
  | num a, num b => decide (a < b)
  | num _, inf => true
  | num _, ninf => false
  | inf, num _ => false
  | ninf, num _ => true
  | inf, inf => false
  | inf, ninf => false
  | ninf, inf => true
  | ninf, ninf => false

/-- IEEE-style non-strict comparison: any comparison with NaN is false. -/
def le : PFloat → PFloat → Bool
  | nan, _ => false
  | _, nan => false
  | num a, num b => decide (a ≤ b)
  | num _, inf => true
  | num _, ninf => false
  | inf, num _ => false
  | ninf, num _ => true
  | inf, inf => true
  | inf, ninf => false
  | ninf, inf => true
  | ninf, ninf => true

end PFloat

theorem pfadd_num (a b : ℚ) : PFloat.add (.num a) (.num b) = .num (a + b) := rfl

theorem pfsub_num (a b : ℚ) : PFloat.sub (.num a) (.num b) = .num (a - b) := by
  simp [PFloat.sub, PFloat.neg, PFloat.add, sub_eq_add_neg]

theorem pfmul_num (a b : ℚ) : PFloat.mul (.num a) (.num b) = .num (a * b) := rfl

theorem pflt_num (a b : ℚ) : PFloat.lt (.num a) (.num b) = decide (a < b) := rfl

theorem pfle_num (a b : ℚ) : PFloat.le (.num a) (.num b) = decide (a ≤ b) := rfl

/-!
Live Signal Engine — embedding of `NiftyIntradayStrategy` (src/strategy.py).

`generate_signal` reads the Greeks snapshot fetched by `fetch_data`
(`self.greeks_data`, with `self.vix = greeks_data.get('vix', 0)`), the last
row of `self.historical_data` (whose `rsi`/`ma` columns were appended by
`calculate_indicators`), and threshold parameters loaded from environment
variables at construction.  We model the thresholds as an explicit parameter
record whose default instance carries the source's default values, the
Greeks snapshot as an optional record (`None` models a falsy
`self.greeks_data`), and the last historical row as a record of the row's
numeric columns (possibly NaN, as `rsi`/`ma` are for early rows).
-/

/-- Threshold/window parameters of `NiftyIntradayStrategy.__init__` and
`is_trading_hours`, with the environment-variable defaults. -/
structure StratParams where
  delta_threshold : ℚ := 1/2
  gamma_threshold : ℚ := 1/10
  theta_threshold : ℚ := 1/20
  vega_threshold : ℚ := 1/10
  vix_buy_threshold : ℚ := 20
  vix_sell_threshold : ℚ := 30
  trading_start_hour : ℕ := 9
  trading_start_minute : ℕ := 15
  trading_end_hour : ℕ := 15
  trading_end_minute : ℕ := 30
deriving DecidableEq, Repr

/-- The default parameter set (all environment variables unset). -/
def defaultStrat : StratParams := {}

/-- The Greeks snapshot dict returned by `NSEDataFetcher.get_option_greeks`,
as read by `generate_signal`; `vix` is the value stored by `fetch_data`
(`greeks_data.get('vix', 0)`). -/
structure GreeksSnap where
  call_delta : PFloat
  call_gamma : PFloat
  call_theta : PFloat
  call_vega : PFloat
  put_delta : PFloat
  put_gamma : PFloat
  put_theta : PFloat
  put_vega : PFloat
  vix : PFloat
deriving DecidableEq, Repr

/-- The last row of `self.historical_data` after `calculate_indicators`:
the numeric columns of the candle plus the derived `rsi` and `ma` columns. -/
structure LastRow where
  open_ : PFloat
  high : PFloat
  low : PFloat
  close : PFloat
  volume : PFloat
  rsi : PFloat
  ma : PFloat
deriving DecidableEq, Repr

/-- `row.notna().all()` over the modelled columns of the last row. -/
def rowNotNa (r : LastRow) : Bool :=
  !r.open_.isNan && !r.high.isNan && !r.low.isNan && !r.close.isNan &&
  !r.volume.isNan && !r.rsi.isNan && !r.ma.isNan

/-- `NiftyIntradayStrategy.is_trading_hours`: the current time of day
(mapped to seconds since midnight) must lie in the closed window from
`start_hour:start_minute:00` to `end_hour:end_minute:00`. -/
def is_trading_hours (p : StratParams) (now : ℕ) : Bool :=
  decide (p.trading_start_hour * 3600 + p.trading_start_minute * 60 ≤ now) &&
  decide (now ≤ p.trading_end_hour * 3600 + p.trading_end_minute * 60)

/-- The ternary verdict of the live engine (`None` models Python `None`). -/
inductive Signal where
  | BUY
  | SELL
deriving DecidableEq, Repr

/-- `NiftyIntradayStrategy.generate_signal`: trading-hours gate first, then
the data-availability gate (`not self.greeks_data or not
self.historical_data.iloc[-1].notna().all()`), then the three BUY filters,
then the three SELL filters. -/
def generate_signal (p : StratParams) (now : ℕ) (greeks : Option GreeksSnap)
    (latest : LastRow) : Option Signal :=
  if !is_trading_hours p now then none
  else
    match greeks with
    | none => none
    | some g =>
      if !rowNotNa latest then none
      else
        let delta_gamma_buy :=
          PFloat.lt (.num p.delta_threshold) g.call_delta &&
          PFloat.lt (.num p.gamma_threshold) g.call_gamma &&
          PFloat.lt (.num 50) latest.rsi &&
          PFloat.lt latest.ma latest.close
        let theta_vega_buy :=
          PFloat.lt g.call_theta (.num p.theta_threshold) &&
          PFloat.lt (.num p.vega_threshold) g.call_vega
        let vix_buy := PFloat.lt g.vix (.num p.vix_buy_threshold)
        let delta_gamma_sell :=
          PFloat.lt g.put_delta (.num (-p.delta_threshold)) &&
          PFloat.lt g.put_gamma (.num (-p.gamma_threshold)) &&
          PFloat.lt latest.rsi (.num 50) &&
          PFloat.lt latest.close latest.ma
        let theta_vega_sell :=
          PFloat.lt (.num p.theta_threshold) g.put_theta &&
          PFloat.lt g.put_vega (.num (-p.vega_threshold))
        let vix_sell := PFloat.lt (.num p.vix_sell_threshold) g.vix
        if delta_gamma_buy && theta_vega_buy && vix_buy then some .BUY
        else if delta_gamma_sell && theta_vega_sell && vix_sell then some .SELL
        else none

/-!
Backtest Simulator — embedding of `Backtester` (src/backtesting.py).

`run_backtest` iterates over the rows of `self.price_data` (index position
`1` onward); each row carries the candle's close, the derived `rsi` and `ma`
columns, and the synthetic Greeks columns filled in by
`simulate_option_greeks`.  We model a row as a `Candle` record; `ts` is the
row's timestamp (an abstract ordinal) and `tod` the timestamp's time of day
in seconds since midnight (the loop compares `current_time.time()` against
the literals `09:15:00` and `15:15:00`, i.e. 33300 and 54900 seconds).
-/

/-- One row of `Backtester.price_data` as consumed by the backtest loop. -/
structure Candle where
  ts : ℕ
  tod : ℕ
  close : PFloat
  rsi : PFloat
  ma : PFloat
  call_delta : PFloat
  call_gamma : PFloat
  call_theta : PFloat
  call_vega : PFloat
  put_delta : PFloat
  put_gamma : PFloat
  put_theta : PFloat
  put_vega : PFloat
  india_vix : PFloat
deriving DecidableEq, Repr

/-- `Backtester.strategy_params` and `Backtester.risk_management`, with the
environment-variable defaults (`RSI_OVERSOLD`/`RSI_OVERBOUGHT` are the
hard-coded literals 30 and 70). -/
structure BTParams where
  DELTA_THRESHOLD : ℚ := 1/2
  GAMMA_THRESHOLD : ℚ := 1/10
  THETA_THRESHOLD : ℚ := 1/20
  VEGA_THRESHOLD : ℚ := 1/10
  RSI_OVERSOLD : ℚ := 30
  RSI_OVERBOUGHT : ℚ := 70
  VIX_THRESHOLD : ℚ := 25
  STOP_LOSS_PERCENT : ℚ := 1
  TAKE_PROFIT_PERCENT : ℚ := 2
deriving DecidableEq, Repr

/-- The default backtester parameter set (all environment variables unset). -/
def defaultBT : BTParams := {}

/-- `Backtester._check_strategy_signal` on one row: returns `1` for long,
`-1` for short, `0` for no signal. -/
def check_strategy_signal (p : BTParams) (c : Candle) : ℤ :=
  let delta_gamma_long :=
    PFloat.lt (.num p.DELTA_THRESHOLD) c.call_delta &&
    PFloat.lt (.num p.GAMMA_THRESHOLD) c.call_gamma
  let delta_gamma_short :=
    PFloat.lt c.put_delta (.num (-p.DELTA_THRESHOLD)) &&
    PFloat.lt (.num p.GAMMA_THRESHOLD) c.put_gamma
  let theta_vega_long :=
    PFloat.lt c.call_theta (.num (-p.THETA_THRESHOLD)) &&
    PFloat.lt (.num p.VEGA_THRESHOLD) c.call_vega
  let theta_vega_short :=
    PFloat.lt c.put_theta (.num (-p.THETA_THRESHOLD)) &&
    PFloat.lt (.num p.VEGA_THRESHOLD) c.put_vega
  let rsi_long := PFloat.lt c.rsi (.num p.RSI_OVERSOLD)
  let rsi_short := PFloat.lt (.num p.RSI_OVERBOUGHT) c.rsi
  let ma_long := PFloat.lt c.ma c.close
  let ma_short := PFloat.lt c.close c.ma
  let vix_filter := PFloat.lt c.india_vix (.num p.VIX_THRESHOLD)
  let long_signal := delta_gamma_long && theta_vega_long && rsi_long && ma_long && vix_filter
  let short_signal := delta_gamma_short && theta_vega_short && rsi_short && ma_short && vix_filter
  if long_signal then 1 else if short_signal then -1 else 0

/-- `trade['exit_reason']` values: `'SL'`, `'TP'`, `'END'`. -/
inductive ExitReason where
  | SL
  | TP
  | END
deriving DecidableEq, Repr

/-- One entry of `Backtester.trades` (`direction` is the `position` value
the trade was held with: `1` for `'LONG'`, `-1` for `'SHORT'`). -/
structure Trade where
  entry_time : ℕ
  exit_time : ℕ
  entry_price : PFloat
  exit_price : PFloat
  direction : ℤ
  pnl : PFloat
  pnl_percent : PFloat
  exit_reason : ExitReason
deriving DecidableEq, Repr

/-- One entry of `Backtester.equity_curve`. -/
structure EquityPoint where
  ts : ℕ
  equity : PFloat
deriving DecidableEq, Repr

/-- The loop-carried state of `run_backtest`: `capital`, `position`,
`entry_price`, `entry_time`, plus the accumulated `trades` and
`equity_curve` lists. -/
structure BTState where
  capital : PFloat
  position : ℤ
  entry_price : PFloat
  entry_time : ℕ
  trades : List Trade
  equity : List EquityPoint
deriving DecidableEq, Repr

/-- `pnl_percent = ((current_price / entry_price) - 1) * 100 * position`. -/
def pnlPercent (current entry : PFloat) (position : ℤ) : PFloat :=
  PFloat.mul (PFloat.mul (PFloat.sub (PFloat.div current entry) (.num 1)) (.num 100))
    (.num (position : ℚ))

/-- The loop's trading-hours skip: `continue` when the row's time of day is
before 09:15:00 or after 15:15:00. -/
def skipBar (c : Candle) : Bool :=
  decide (c.tod < 33300) || decide (54900 < c.tod)

/-- The exit test of the backtest loop: stop-loss or take-profit reached. -/
def exitCond (p : BTParams) (s : BTState) (c : Candle) : Bool :=
  PFloat.le (pnlPercent c.close s.entry_price s.position) (.num (-p.STOP_LOSS_PERCENT)) ||
  PFloat.le (.num p.TAKE_PROFIT_PERCENT) (pnlPercent c.close s.entry_price s.position)

/-- The trade record appended when the loop closes the open position at row
`c` (`'SL'` when the percentage P&L is negative, else `'TP'`). -/
def closingTrade (s : BTState) (c : Candle) : Trade :=
  { entry_time := s.entry_time
    exit_time := c.ts
    entry_price := s.entry_price
    exit_price := c.close
    direction := s.position
    pnl := PFloat.mul (PFloat.sub c.close s.entry_price) (.num (s.position : ℚ))
    pnl_percent := pnlPercent c.close s.entry_price s.position
    exit_reason :=
      if PFloat.lt (pnlPercent c.close s.entry_price s.position) (.num 0) then .SL else .TP }

/-- One iteration of the `run_backtest` loop body: skip out-of-hours rows;
otherwise compute the signal, process the exit of an open position, process
an entry if flat, and append one equity point (realized capital plus
unrealized P&L of the position now held). -/
def btStep (p : BTParams) (s : BTState) (c : Candle) : BTState :=
  if skipBar c then s
  else
    let signal := check_strategy_signal p c
    let s1 :=
      if s.position ≠ 0 then
        if exitCond p s c then
          { s with
            capital := PFloat.add s.capital
              (PFloat.mul (PFloat.sub c.close s.entry_price) (.num (s.position : ℚ)))
            trades := s.trades ++ [closingTrade s c]
            position := 0 }
        else s
      else s
    let s2 :=
      if s1.position = 0 ∧ signal ≠ 0 then
        { s1 with position := signal, entry_price := c.close, entry_time := c.ts }
      else s1
    let eq :=
      if s2.position ≠ 0 then
        PFloat.add s2.capital
          (PFloat.mul (PFloat.sub c.close s2.entry_price) (.num (s2.position : ℚ)))
      else s2.capital
    { s2 with equity := s2.equity ++ [{ ts := c.ts, equity := eq }] }

/-- The state of `run_backtest` just before the loop: capital 100000, no
position, and one initial equity point at the first row's timestamp. -/
def initState (c0 : Candle) : BTState :=
  { capital := .num 100000
    position := 0
    entry_price := .num 0
    entry_time := 0
    trades := []
    equity := [{ ts := c0.ts, equity := .num 100000 }] }

/-- What `run_backtest` leaves behind: the final capital and the
accumulated `trades` and `equity_curve` lists. -/
structure BTResult where
  capital : PFloat
  trades : List Trade
  equity : List EquityPoint
deriving DecidableEq, Repr

/-- The end-of-data forced close of `run_backtest`: an open position is
closed at the very last row's close (`price_data['close'].iloc[-1]`,
`price_data.index[-1]`), with exit reason `'END'`, bypassing the
trading-hours filter; no equity point is appended. -/
def finalClose (last : Candle) (s : BTState) : BTState :=
  if s.position ≠ 0 then
    { s with
      capital := PFloat.add s.capital
        (PFloat.mul (PFloat.sub last.close s.entry_price) (.num (s.position : ℚ)))
      trades := s.trades ++
        [{ entry_time := s.entry_time
           exit_time := last.ts
           entry_price := s.entry_price
           exit_price := last.close
           direction := s.position
           pnl := PFloat.mul (PFloat.sub last.close s.entry_price) (.num (s.position : ℚ))
           pnl_percent := pnlPercent last.close s.entry_price s.position
           exit_reason := .END }]
      position := 0 }
  else s

/-- `Backtester.run_backtest` over the rows of `price_data`: `none` models
the (guarded-against upstream) empty-data case, where the source would fail
on `price_data.index[0]`. -/
def run_backtest (p : BTParams) (candles : List Candle) : Option BTResult :=
  match candles with
  | [] => none
  | c0 :: rest =>
    let sEnd := rest.foldl (btStep p) (initState c0)
    let final := finalClose (rest.getLastD c0) sEnd
    some { capital := final.capital, trades := final.trades, equity := final.equity }

/-- `metrics['winning_trades']`: trades with `pnl > 0`. -/
def winning_trades (trades : List Trade) : ℕ :=
  trades.countP (fun t => PFloat.lt (.num 0) t.pnl)

/-- `metrics['losing_trades']`: trades with `pnl <= 0`. -/
def losing_trades (trades : List Trade) : ℕ :=
  trades.countP (fun t => PFloat.le t.pnl (.num 0))

/-!
Indicator Library — embedding of `Backtester._calculate_rsi`
(src/backtesting.py) and the identical computation in
`NiftyIntradayStrategy.calculate_indicators` (src/strategy.py).

`prices.diff()` yields NaN at row 0; `delta.where(delta > 0, 0)` replaces
every row failing the condition — including the NaN row 0, since
`NaN > 0` is false — by 0, so the gain/loss series start with a literal 0.
`rolling(window=period).mean()` is NaN until `period` samples exist; we
model the defined entries with `Option` (`none` = not yet defined).
-/

/-- `prices.diff()` without its leading NaN: consecutive differences. -/
def diffs : List ℚ → List ℚ
  | [] => []
  | [_] => []
  | a :: b :: rest => (b - a) :: diffs (b :: rest)

/-- `delta.where(delta > 0, 0)`: the gain series (0 at row 0, since the
NaN difference fails the `> 0` test and is replaced). -/
def gainList (closes : List ℚ) : List ℚ :=
  match closes with
  | [] => []
  | _ :: _ => 0 :: (diffs closes).map (fun d => max d 0)

/-- `(-delta.where(delta < 0, 0))`: the loss series (0 at row 0). -/
def lossList (closes : List ℚ) : List ℚ :=
  match closes with
  | [] => []
  | _ :: _ => 0 :: (diffs closes).map (fun d => max (-d) 0)

/-- `series.rolling(window=period).mean()` at row `i`: defined once the
window is full (`period ≤ i+1`), as the mean of the last `period` entries. -/
def rollMean (xs : List ℚ) (period i : ℕ) : Option ℚ :=
  if period ≤ i + 1 ∧ i < xs.length then
    some ((((xs.drop (i + 1 - period)).take period).sum) / (period : ℚ))
  else none

/-- `rsi = 100 - (100 / (1 + gain/loss))` from the two rolling averages,
in float semantics: `avgLoss = 0` with `avgGain > 0` gives `rs = +inf` and
the expression collapses to `100 - 100/inf = 100`; `0/0` stays NaN. -/
def rsiOfAvg (g l : ℚ) : PFloat :=
  PFloat.sub (.num 100)
    (PFloat.div (.num 100) (PFloat.add (.num 1) (PFloat.div (.num g) (.num l))))

/-- `Backtester._calculate_rsi` at row `i`: `none` where the rolling
windows are not yet full (the NaN prefix of the pandas result), otherwise
the float value (possibly NaN from `0/0`). -/
def calculate_rsi (closes : List ℚ) (period i : ℕ) : Option PFloat :=
  match rollMean (gainList closes) period i, rollMean (lossList closes) period i with
  | some g, some l => some (rsiOfAvg g l)
  | _, _ => none

/-!
Performance Analyzer — embedding of the Sharpe-ratio computation of
`Backtester._calculate_performance_metrics` (src/backtesting.py, lines
354-363).

`equity_df['returns'] = equity_df['equity'].pct_change()` followed by
`.dropna()` leaves the successive percentage changes; the code then takes
`np.sqrt(252) * mean / std` with pandas' sample standard deviation
(`ddof=1`).  Two float facts matter: the sample std of a single return is
NaN, and a zero std makes the quotient `+inf`, `-inf` or NaN (for a
positive, negative or zero mean) — never 0.  Since `sqrt(252) * m / sqrt(v)`
is irrational for general rationals, the finite branch stores the result's
signed square `252 * m * |m| / v`, which determines it uniquely
(`x ↦ x * |x|` is injective on ℝ); the bridging identity is proved in the
claim-C5 theorem.
-/

/-- `equity.pct_change()` without its leading NaN. -/
def pct_change : List ℚ → List ℚ
  | [] => []
  | [_] => []
  | a :: b :: rest => (b / a - 1) :: pct_change (b :: rest)

/-- `series.mean()`. -/
def listMean (xs : List ℚ) : ℚ := xs.sum / (xs.length : ℚ)

/-- `series.std() ** 2` with pandas' default `ddof=1` (sample variance). -/
def sampleVar (xs : List ℚ) : ℚ :=
  ((xs.map (fun x => (x - listMean xs) ^ 2)).sum) / ((xs.length : ℚ) - 1)

/-- The Sharpe computation of `_calculate_performance_metrics`: 0 when the
equity curve has fewer than 2 points or no returns survive `dropna()`; NaN
when only one return exists (sample std of one value is NaN); otherwise
`sqrt(252) * mean / std`, encoded by its signed square when finite and by
the float sign analysis of `mean / 0` when the variance is zero. -/
def sharpeValue (equity : List ℚ) : PFloat :=
  if 1 < equity.length then
    let rets := pct_change equity
    if 0 < rets.length then
      if rets.length = 1 then .nan
      else
        let m := listMean rets
        let v := sampleVar rets
        if v = 0 then (if m = 0 then .nan else if 0 < m then .inf else .ninf)
        else .num (252 * m * |m| / v)
    else .num 0
  else .num 0

/-! Helper lemmas about the float model. -/

theorem pflt_nan_right (x : PFloat) : PFloat.lt x .nan = false := by
  cases x <;> rfl

theorem pflt_nan_left (x : PFloat) : PFloat.lt .nan x = false := by
  cases x <;> rfl

theorem pfle_nan_right (x : PFloat) : PFloat.le x .nan = false := by
  cases x <;> rfl

theorem pfle_nan_left (x : PFloat) : PFloat.le .nan x = false := by
  cases x <;> rfl

theorem pfdiv_nan_left (x : PFloat) : PFloat.div .nan x = .nan := by
  cases x <;> rfl

theorem pfsub_nan_left (x : PFloat) : PFloat.sub .nan x = .nan := by
  cases x <;> rfl

theorem pfmul_nan_left (x : PFloat) : PFloat.mul .nan x = .nan := by
  cases x <;> rfl

/-- The backtester signal is always one of `1`, `-1`, `0`. -/
theorem check_strategy_signal_cases (p : BTParams) (c : Candle) :
    check_strategy_signal p c = 1 ∨ check_strategy_signal p c = -1 ∨
    check_strategy_signal p c = 0 := by
  unfold check_strategy_signal
  dsimp only
  split
  · exact Or.inl rfl
  · split
    · exact Or.inr (Or.inl rfl)
    · exact Or.inr (Or.inr rfl)

/-- Claim C3: for every evaluation whose time lies outside the configured
trading-hours window (default 09:15-15:30), `generate_signal` returns NONE
regardless of the Greeks snapshot, RSI, MA, price and VIX inputs; the gate
fires before any data-availability check, since the conclusion holds even
for a missing Greeks snapshot or a NaN-laden last row. -/
theorem C3_trading_hours_gate (p : StratParams) (now : ℕ)
    (greeks : Option GreeksSnap) (latest : LastRow)
    (h : is_trading_hours p now = false) :
    generate_signal p now greeks latest = none := by
  unfold generate_signal
  rw [h]
  rfl

/-- Witness for C3 at a concrete out-of-hours time (18:00:00) with a
Greeks snapshot and indicators that would otherwise produce SELL. -/
theorem C3_trading_hours_gate_witness :
    is_trading_hours defaultStrat 64800 = false ∧
    generate_signal defaultStrat 64800
      (some { call_delta := .num 0, call_gamma := .num 0, call_theta := .num 0,
              call_vega := .num 0, put_delta := .num (-3/5), put_gamma := .num (-1/5),
              put_theta := .num (1/10), put_vega := .num (-1/5), vix := .num 35 })
      { open_ := .num 100, high := .num 100, low := .num 100, close := .num 90,
        volume := .num 1000, rsi := .num 40, ma := .num 100 } = none :=
  ⟨by decide, C3_trading_hours_gate _ _ _ _ (by decide)⟩

/-! Claim C1: which side of the gamma threshold each SELL filter tests. -/

/-- A Greeks snapshot whose put leg satisfies every SELL condition of the
live engine; its put gamma is negative. -/
def c1Greeks : GreeksSnap :=
  { call_delta := .num 0, call_gamma := .num 0, call_theta := .num 0,
    call_vega := .num 0, put_delta := .num (-3/5), put_gamma := .num (-1/5),
    put_theta := .num (1/10), put_vega := .num (-1/5), vix := .num 35 }

/-- A last historical row satisfying the live engine's SELL momentum
conditions. -/
def c1Row : LastRow :=
  { open_ := .num 100, high := .num 100, low := .num 100, close := .num 90,
    volume := .num 1000, rsi := .num 40, ma := .num 100 }

/-- A backtester row whose put leg satisfies every short condition of
`_check_strategy_signal`; its put gamma is positive. -/
def c1Candle : Candle :=
  { ts := 1, tod := 36000, close := .num 90, rsi := .num 80, ma := .num 100,
    call_delta := .num 0, call_gamma := .num 0, call_theta := .num 0,
    call_vega := .num 0, put_delta := .num (-3/5), put_gamma := .num (1/5),
    put_theta := .num (-1/10), put_vega := .num (1/5), india_vix := .num 15 }

/-- Counterexample to claim C1: the attributions are swapped.  The live
engine emits SELL with a put gamma of -1/5, which is not above the gamma
threshold 1/10; the backtester emits a short signal with a put gamma of
1/5, which is not below -1/10. -/
theorem C1_counterexample :
    generate_signal defaultStrat 36000 (some c1Greeks) c1Row = some .SELL ∧
    PFloat.lt (.num defaultStrat.gamma_threshold) c1Greeks.put_gamma = false ∧
    check_strategy_signal defaultBT c1Candle = -1 ∧
    PFloat.lt c1Candle.put_gamma (.num (-defaultBT.GAMMA_THRESHOLD)) = false := by
  refine ⟨?_, ?_, ?_, ?_⟩
  · norm_num [generate_signal, c1Greeks, c1Row, defaultStrat, is_trading_hours,
      rowNotNa, PFloat.isNan, pflt_num]
  · norm_num [c1Greeks, defaultStrat, pflt_num]
  · norm_num [check_strategy_signal, c1Candle, defaultBT, pflt_num]
  · norm_num [c1Candle, defaultBT, pflt_num]

/-- Claim C1 (amended): the discrepancy exists with the attributions
swapped — for every input, the live Signal Engine's SELL branch requires
put gamma strictly below `-gammaThreshold`, while the Backtester's short
branch requires put gamma strictly above `gammaThreshold`. -/
theorem C1_amended (p : StratParams) (now : ℕ) (g : GreeksSnap)
    (latest : LastRow) (q : BTParams) (c : Candle) :
    (generate_signal p now (some g) latest = some .SELL →
      PFloat.lt g.put_gamma (.num (-p.gamma_threshold)) = true) ∧
    (check_strategy_signal q c = -1 →
      PFloat.lt (.num q.GAMMA_THRESHOLD) c.put_gamma = true) := by
  constructor
  · intro h
    by_contra hg
    rw [Bool.not_eq_true] at hg
    unfold generate_signal at h
    dsimp only at h
    rw [hg] at h
    by_cases h1 : is_trading_hours p now
    · rw [h1] at h
      simp only [Bool.not_true, Bool.false_eq_true, if_false] at h
      by_cases h2 : rowNotNa latest
      · rw [h2] at h
        simp only [Bool.not_true, Bool.false_eq_true, if_false] at h
        simp only [Bool.and_false, Bool.false_and, Bool.false_eq_true, if_false] at h
        split at h
        · exact Signal.noConfusion (Option.some.inj h)
        · exact Option.noConfusion h
      · rw [Bool.not_eq_true] at h2
        rw [h2] at h
        simp at h
    · rw [Bool.not_eq_true] at h1
      rw [h1] at h
      simp at h
  · intro h
    by_contra hg
    rw [Bool.not_eq_true] at hg
    unfold check_strategy_signal at h
    dsimp only at h
    rw [hg] at h
    simp only [Bool.and_false, Bool.false_and, Bool.false_eq_true, if_false] at h
    split at h
    · omega
    · omega

/-- Witness for C1 (amended) at the two concrete inputs of the
counterexample: the extracted gamma inequalities hold there. -/
theorem C1_amended_witness :
    PFloat.lt c1Greeks.put_gamma (.num (-defaultStrat.gamma_threshold)) = true ∧
    PFloat.lt (.num defaultBT.GAMMA_THRESHOLD) c1Candle.put_gamma = true :=
  ⟨(C1_amended defaultStrat 36000 c1Greeks c1Row defaultBT c1Candle).1
      (by norm_num [generate_signal, c1Greeks, c1Row, defaultStrat, is_trading_hours,
        rowNotNa, PFloat.isNan, pflt_num]),
   (C1_amended defaultStrat 36000 c1Greeks c1Row defaultBT c1Candle).2
      (by norm_num [check_strategy_signal, c1Candle, defaultBT, pflt_num])⟩

/-! Claim C2: the RSI/MA filters of the backtester's inline signal check. -/

/-- A backtester row whose long conditions all hold with an RSI of 20. -/
def c2Candle : Candle :=
  { ts := 1, tod := 36000, close := .num 100, rsi := .num 20, ma := .num 90,
    call_delta := .num (3/5), call_gamma := .num (1/5), call_theta := .num (-1/10),
    call_vega := .num (1/5), put_delta := .num 0, put_gamma := .num 0,
    put_theta := .num 0, put_vega := .num 0, india_vix := .num 15 }

/-- Counterexample to claim C2: `_check_strategy_signal` emits a long
signal on a row whose RSI is 20, which is not above 50 — the backtester's
momentum filter is the oversold/overbought test, not the Signal Engine's
50-crossing test. -/
theorem C2_counterexample :
    check_strategy_signal defaultBT c2Candle = 1 ∧
    c2Candle.rsi = .num 20 ∧
    PFloat.lt (.num 50) c2Candle.rsi = false := by
  refine ⟨?_, rfl, ?_⟩
  · norm_num [check_strategy_signal, c2Candle, defaultBT, pflt_num]
  · norm_num [c2Candle, pflt_num]

/-- Claim C2 (amended): the Backtester's per-bar signal check uses the MA
filter of the rule table (long needs close above MA, short needs close
below MA) but replaces the momentum filter by the oversold/overbought
test: a long signal requires `rsi < RSI_OVERSOLD` (default 30) and a short
signal requires `rsi > RSI_OVERBOUGHT` (default 70). -/
theorem C2_amended (p : BTParams) (c : Candle) :
    (check_strategy_signal p c = 1 →
      PFloat.lt c.rsi (.num p.RSI_OVERSOLD) = true ∧ PFloat.lt c.ma c.close = true) ∧
    (check_strategy_signal p c = -1 →
      PFloat.lt (.num p.RSI_OVERBOUGHT) c.rsi = true ∧ PFloat.lt c.close c.ma = true) := by
  constructor
  · intro h
    unfold check_strategy_signal at h
    dsimp only at h
    split at h
    · next hl =>
        simp only [Bool.and_eq_true] at hl
        exact ⟨hl.1.1.2, hl.1.2⟩
    · split at h
      · omega
      · omega
  · intro h
    unfold check_strategy_signal at h
    dsimp only at h
    split at h
    · omega
    · split at h
      · next hs =>
          simp only [Bool.and_eq_true] at hs
          exact ⟨hs.1.1.2, hs.1.2⟩
      · omega

/-- Witness for C2 (amended) at the concrete long-signal row of the
counterexample. -/
theorem C2_amended_witness :
    PFloat.lt c2Candle.rsi (.num defaultBT.RSI_OVERSOLD) = true ∧
    PFloat.lt c2Candle.ma c2Candle.close = true :=
  (C2_amended defaultBT c2Candle).1
    (by norm_num [check_strategy_signal, c2Candle, defaultBT, pflt_num])

/-- Claim C4: at every evaluated (in-trading-hours) bar with an open
position whose `pnl_percent` hits the stop-loss or take-profit bound, the
loop closes the position at that bar's close, adds
`(close - entry) * direction` to capital, records a trade whose exit
reason is `SL` exactly when `pnl_percent < 0` and `TP` otherwise, and
leaves the FLAT state behind (the resulting position is whatever the
freshly computed entry signal dictates: `0` when no new signal fires). -/
theorem C4_stop_take_profit_exit (p : BTParams) (s : BTState) (c : Candle)
    (hskip : skipBar c = false) (hpos : s.position ≠ 0)
    (hexit : exitCond p s c = true) :
    (btStep p s c).trades = s.trades ++ [closingTrade s c] ∧
    (btStep p s c).capital =
      PFloat.add s.capital
        (PFloat.mul (PFloat.sub c.close s.entry_price) (.num (s.position : ℚ))) ∧
    (btStep p s c).position = check_strategy_signal p c ∧
    (closingTrade s c).exit_price = c.close ∧
    (closingTrade s c).exit_reason =
      (if PFloat.lt (pnlPercent c.close s.entry_price s.position) (.num 0) then
        ExitReason.SL else ExitReason.TP) := by
  by_cases hsig : check_strategy_signal p c = 0 <;>
    simp [btStep, hskip, hpos, hexit, hsig, closingTrade]

/-- The concrete open LONG state of the C4 witness: entered at 100. -/
def c4State : BTState :=
  { capital := .num 100000, position := 1, entry_price := .num 100,
    entry_time := 5, trades := [], equity := [] }

/-- The concrete in-hours bar of the C4 witness: close 99, no fresh
signal. -/
def c4Candle : Candle :=
  { ts := 6, tod := 36000, close := .num 99, rsi := .num 50, ma := .num 99,
    call_delta := .num 0, call_gamma := .num 0, call_theta := .num 0,
    call_vega := .num 0, put_delta := .num 0, put_gamma := .num 0,
    put_theta := .num 0, put_vega := .num 0, india_vix := .num 15 }

/-- Witness for C4: a LONG position entered at 100 with the default
stop-loss of 1.0 exits at a bar whose close is 99 — `pnl_percent` is
exactly -1, the stop-loss bound — with exit reason `SL`. -/
theorem C4_stop_take_profit_exit_witness :
    skipBar c4Candle = false ∧
    pnlPercent c4Candle.close c4State.entry_price c4State.position = .num (-1) ∧
    exitCond defaultBT c4State c4Candle = true ∧
    (btStep defaultBT c4State c4Candle).trades = [closingTrade c4State c4Candle] ∧
    (closingTrade c4State c4Candle).exit_reason = ExitReason.SL := by
  have hskip : skipBar c4Candle = false := by norm_num [skipBar, c4Candle]
  have hpnl : pnlPercent c4Candle.close c4State.entry_price c4State.position = .num (-1) := by
    norm_num [pnlPercent, c4Candle, c4State, PFloat.div, PFloat.sub, PFloat.neg,
      PFloat.add, PFloat.mul]
  have hexit : exitCond defaultBT c4State c4Candle = true := by
    norm_num [exitCond, defaultBT, hpnl, pfle_num]
  have hpos : c4State.position ≠ 0 := by norm_num [c4State]
  have h := C4_stop_take_profit_exit defaultBT c4State c4Candle hskip hpos hexit
  refine ⟨hskip, hpnl, hexit, ?_, ?_⟩
  · rw [h.1]
    norm_num [c4State]
  · rw [h.2.2.2.2, hpnl]
    norm_num [pflt_num]

/-! Claim C6: RSI never raises, stays in [0, 100], saturates at 100. -/

theorem diffs_length : ∀ xs : List ℚ, (diffs xs).length = xs.length - 1
  | [] => rfl
  | [_] => rfl
  | a :: b :: rest => by
      have ih := diffs_length (b :: rest)
      simp only [diffs, List.length_cons] at ih ⊢
      omega

theorem gainList_length (closes : List ℚ) : (gainList closes).length = closes.length := by
  cases closes with
  | nil => rfl
  | cons a t =>
      simp only [gainList, List.length_cons, List.length_map, diffs_length]
      omega

theorem lossList_length (closes : List ℚ) : (lossList closes).length = closes.length := by
  cases closes with
  | nil => rfl
  | cons a t =>
      simp only [lossList, List.length_cons, List.length_map, diffs_length]
      omega

theorem gainList_nonneg (closes : List ℚ) : ∀ x ∈ gainList closes, 0 ≤ x := by
  cases closes with
  | nil => simp [gainList]
  | cons a t =>
      intro x hx
      simp only [gainList, List.mem_cons, List.mem_map] at hx
      rcases hx with h | ⟨d, _, rfl⟩
      · exact le_of_eq h.symm
      · exact le_max_right d 0

theorem lossList_nonneg (closes : List ℚ) : ∀ x ∈ lossList closes, 0 ≤ x := by
  cases closes with
  | nil => simp [lossList]
  | cons a t =>
      intro x hx
      simp only [lossList, List.mem_cons, List.mem_map] at hx
      rcases hx with h | ⟨d, _, rfl⟩
      · exact le_of_eq h.symm
      · exact le_max_right (-d) 0

theorem rollMean_nonneg (xs : List ℚ) (p i : ℕ) (m : ℚ)
    (hxs : ∀ x ∈ xs, 0 ≤ x) (hm : rollMean xs p i = some m) : 0 ≤ m := by
  unfold rollMean at hm
  split at hm
  · rw [Option.some.injEq] at hm
    subst hm
    apply div_nonneg _ (Nat.cast_nonneg p)
    apply List.sum_nonneg
    intro x hx
    exact hxs x (List.mem_of_mem_drop (List.mem_of_mem_take hx))
  · exact absurd hm (by simp)

theorem rsiOfAvg_bounds (g l : ℚ) (hg : 0 ≤ g) (hl : 0 ≤ l) (q : ℚ)
    (h : rsiOfAvg g l = .num q) : 0 ≤ q ∧ q ≤ 100 := by
  rcases eq_or_lt_of_le hl with hl0 | hl0
  · rcases eq_or_lt_of_le hg with hg0 | hg0
    · rw [← hl0, ← hg0] at h
      simp [rsiOfAvg, PFloat.div, PFloat.add, PFloat.sub, PFloat.neg] at h
    · have e : rsiOfAvg g l = .num 100 := by
        rw [← hl0]
        norm_num [rsiOfAvg, PFloat.div, hg0.ne', hg0, PFloat.add, PFloat.sub, PFloat.neg]
      rw [e] at h
      rw [PFloat.num.injEq] at h
      subst h
      norm_num
  · have hl' : l ≠ 0 := ne_of_gt hl0
    have hrs : 0 ≤ g / l := div_nonneg hg hl0.le
    have hd : (0:ℚ) < 1 + g / l := by linarith
    have e : rsiOfAvg g l = .num (100 - 100 / (1 + g / l)) := by
      unfold rsiOfAvg
      rw [show PFloat.div (.num g) (.num l) = .num (g / l) by simp [PFloat.div, hl'],
        pfadd_num,
        show PFloat.div (.num 100) (.num (1 + g / l)) = .num (100 / (1 + g / l)) by
          simp [PFloat.div, hd.ne'],
        pfsub_num]
    rw [e, PFloat.num.injEq] at h
    subst h
    have h1 : 100 / (1 + g / l) ≤ 100 := by
      apply div_le_self (by norm_num) (by linarith)
    have h2 : 0 < 100 / (1 + g / l) := by positivity
    constructor <;> linarith

/-- Claim C6: for every finite close-price sequence and period ≥ 1, the
RSI computation never raises a division error (it yields a value — possibly
the silent NaN of `0/0` — exactly where both rolling windows are full),
every index with a numeric RSI value lies in [0, 100], and wherever the
average loss is 0 while the average gain is positive the RSI saturates at
exactly 100. -/
theorem C6_rsi_safety (closes : List ℚ) (period i : ℕ) (hp : 1 ≤ period) :
    ((calculate_rsi closes period i).isSome = true ↔
      (period ≤ i + 1 ∧ i < closes.length)) ∧
    (∀ q : ℚ, calculate_rsi closes period i = some (.num q) → 0 ≤ q ∧ q ≤ 100) ∧
    (∀ g l : ℚ, rollMean (gainList closes) period i = some g →
      rollMean (lossList closes) period i = some l → l = 0 → 0 < g →
      calculate_rsi closes period i = some (.num 100)) := by
  refine ⟨?_, ?_, ?_⟩
  · by_cases hc : period ≤ i + 1 ∧ i < closes.length
    · simp [calculate_rsi, rollMean, gainList_length, lossList_length, hc]
    · simp [calculate_rsi, rollMean, gainList_length, lossList_length, hc]
  · intro q h
    unfold calculate_rsi at h
    split at h
    · next g l hg hl =>
        rw [Option.some.injEq] at h
        exact rsiOfAvg_bounds g l
          (rollMean_nonneg _ _ _ _ (gainList_nonneg closes) hg)
          (rollMean_nonneg _ _ _ _ (lossList_nonneg closes) hl) q h
    · exact absurd h (by simp)
  · intro g l hg hl hl0 hg0
    unfold calculate_rsi
    rw [hg, hl]
    subst hl0
    have e : rsiOfAvg g 0 = .num 100 := by
      norm_num [rsiOfAvg, PFloat.div, hg0.ne', hg0, PFloat.add, PFloat.sub, PFloat.neg]
    show some (rsiOfAvg g 0) = some (.num 100)
    rw [e]

/-- Witness for C6: with period 2, closes 100, 102, 101 give RSI 200/3 at
index 2 (inside [0, 100]), and monotone closes 100, 102, 103 give a zero
average loss, a positive average gain, and an RSI of exactly 100. -/
theorem C6_rsi_safety_witness :
    calculate_rsi [100, 102, 101] 2 2 = some (.num (200/3)) ∧
    (0 ≤ (200/3 : ℚ) ∧ (200/3 : ℚ) ≤ 100) ∧
    calculate_rsi [100, 102, 103] 2 2 = some (.num 100) := by
  have h1 : calculate_rsi [100, 102, 101] 2 2 = some (.num (200/3)) := by
    norm_num [calculate_rsi, rollMean, gainList, lossList, diffs, rsiOfAvg,
      PFloat.div, PFloat.add, PFloat.sub, PFloat.neg]
  have hb := (C6_rsi_safety [100, 102, 101] 2 2 (by norm_num)).2.1 (200/3) h1
  have hg : rollMean (gainList [100, 102, 103]) 2 2 = some (3/2) := by
    norm_num [rollMean, gainList, diffs]
  have hl : rollMean (lossList [100, 102, 103]) 2 2 = some 0 := by
    norm_num [rollMean, lossList, diffs]
  have h2 := (C6_rsi_safety [100, 102, 103] 2 2 (by norm_num)).2.2 (3/2) 0 hg hl rfl
    (by norm_num)
  exact ⟨h1, hb, h2⟩

/-! Claim C5: the Sharpe computation of the Performance Analyzer. -/

theorem pct_change_length : ∀ xs : List ℚ, (pct_change xs).length = xs.length - 1
  | [] => rfl
  | [_] => rfl
  | a :: b :: rest => by
      have ih := pct_change_length (b :: rest)
      simp only [pct_change, List.length_cons] at ih ⊢
      omega

/-- Counterexample to claim C5: the equity curve 100, 110, 121 has the
constant return sequence 1/10, 1/10 — zero variance — yet the code divides
the positive mean by the zero standard deviation and yields +inf, not 0. -/
theorem C5_counterexample :
    sharpeValue [100, 110, 121] = PFloat.inf ∧
    sampleVar (pct_change [100, 110, 121]) = 0 ∧
    PFloat.inf ≠ PFloat.num 0 := by
  have hv : sampleVar (pct_change [100, 110, 121]) = 0 := by
    norm_num [pct_change, sampleVar, listMean]
  refine ⟨?_, hv, by simp⟩
  have hm : listMean (pct_change [100, 110, 121]) = 1/10 := by
    norm_num [pct_change, listMean]
  unfold sharpeValue
  rw [if_pos (by norm_num)]
  simp only
  rw [if_pos (by norm_num [pct_change]), if_neg (by norm_num [pct_change]),
    if_pos hv, if_neg (by rw [hm]; norm_num), if_pos (by rw [hm]; norm_num)]

/-- Claim C5 (amended): the Sharpe computation equals
`sqrt(252) * mean/std` over the successive percentage changes of the
equity curve and returns 0 when the curve has fewer than 2 points, but a
zero variance of the returns is not guarded: the code then yields +inf,
-inf or NaN according to the sign of the mean (and the sample deviation of
a single return is NaN).  The finite branch is recorded as the signed
square `252 * m * |m| / v`, and the last conjunct proves this encoding
determines exactly `sqrt(252) * m / sqrt(v)`.  (The model's percentage
changes use exact rational division, faithful for the nonzero equity
values the hypothesis demands.) -/
theorem C5_amended (equity : List ℚ) (h0 : ∀ x ∈ equity, x ≠ 0) :
    (equity.length ≤ 1 → sharpeValue equity = .num 0) ∧
    (∀ m v : ℚ, 2 ≤ (pct_change equity).length →
      m = listMean (pct_change equity) → v = sampleVar (pct_change equity) →
      (v ≠ 0 → sharpeValue equity = .num (252 * m * |m| / v)) ∧
      (v = 0 → sharpeValue equity =
        (if m = 0 then PFloat.nan else if 0 < m then PFloat.inf else PFloat.ninf))) ∧
    (∀ m v : ℚ, 0 < v →
      Real.sqrt 252 * (m : ℝ) / Real.sqrt (v : ℝ) =
        (if 0 ≤ m then (1:ℝ) else -1) * Real.sqrt |((252 * m * |m| / v : ℚ) : ℝ)|) := by
  refine ⟨?_, ?_, ?_⟩
  · intro h
    unfold sharpeValue
    rw [if_neg (by omega)]
  · intro m v hlen hm hv
    have h1 : 1 < equity.length := by
      have := pct_change_length equity
      omega
    constructor
    · intro hv0
      unfold sharpeValue
      rw [if_pos h1]
      simp only
      rw [if_pos (by omega), if_neg (by omega), if_neg (hv ▸ hv0)]
      rw [hm, hv]
    · intro hv0
      unfold sharpeValue
      rw [if_pos h1]
      simp only
      rw [if_pos (by omega), if_neg (by omega), if_pos (hv ▸ hv0)]
      rw [hm]
  · intro m v hv
    have hv' : (0:ℝ) < (v:ℝ) := by exact_mod_cast hv
    have habs : |((252 * m * |m| / v : ℚ) : ℝ)| = 252 * ((m:ℝ) * (m:ℝ)) / (v:ℝ) := by
      push_cast
      rw [abs_div, abs_of_pos hv', abs_mul, abs_mul, abs_abs,
        show |(252:ℝ)| = 252 by norm_num, mul_assoc, abs_mul_abs_self]
    have hsq : (Real.sqrt 252 * (m:ℝ) / Real.sqrt (v:ℝ)) ^ 2 =
        252 * ((m:ℝ) * (m:ℝ)) / (v:ℝ) := by
      rw [div_pow, mul_pow, Real.sq_sqrt (by norm_num : (0:ℝ) ≤ 252),
        Real.sq_sqrt hv'.le]
      ring
    rw [habs, ← hsq, Real.sqrt_sq_eq_abs]
    by_cases hmn : 0 ≤ m
    · have hm' : (0:ℝ) ≤ Real.sqrt 252 * (m:ℝ) / Real.sqrt (v:ℝ) :=
        div_nonneg (mul_nonneg (Real.sqrt_nonneg _) (by exact_mod_cast hmn))
          (Real.sqrt_nonneg _)
      rw [if_pos hmn, abs_of_nonneg hm']
      ring
    · push_neg at hmn
      have hm0 : ((m:ℝ)) ≤ 0 := by exact_mod_cast hmn.le
      have h2 : Real.sqrt 252 * (m:ℝ) ≤ 0 := by
        nlinarith [Real.sqrt_nonneg (252:ℝ)]
      have hm' : Real.sqrt 252 * (m:ℝ) / Real.sqrt (v:ℝ) ≤ 0 :=
        div_nonpos_of_nonpos_of_nonneg h2 (Real.sqrt_nonneg _)
      rw [if_neg (by exact_mod_cast hmn.not_le), abs_of_nonpos hm']
      ring

/-- Witness for C5 (amended): the equity curve 1, 2, 1 has returns 1 and
-1/2, with mean 1/4 and sample variance 9/8, so the recorded value is the
signed square `252 * (1/4) * (1/4) / (9/8) = 14`. -/
theorem C5_amended_witness :
    sharpeValue [1, 2, 1] = .num 14 ∧
    listMean (pct_change [1, 2, 1]) = 1/4 ∧
    sampleVar (pct_change [1, 2, 1]) = 9/8 := by
  have hm : listMean (pct_change [1, 2, 1]) = 1/4 := by
    norm_num [pct_change, listMean]
  have hv : sampleVar (pct_change [1, 2, 1]) = 9/8 := by
    norm_num [pct_change, sampleVar, listMean]
  have h := ((C5_amended [1, 2, 1] (by norm_num)).2.1
    (listMean (pct_change [1, 2, 1])) (sampleVar (pct_change [1, 2, 1]))
    (by norm_num [pct_change]) rfl rfl).1 (by rw [hv]; norm_num)
  refine ⟨?_, hm, hv⟩
  rw [h, hm, hv, abs_of_pos (by norm_num : (0:ℚ) < 1/4)]
  norm_num

/-! Claim C8: single open position; one trade per completed cycle. -/

/-- A bar at which the loop closes the open position: evaluated (not
skipped), a position is open, and the stop-loss/take-profit test fires. -/
def closeEvent (p : BTParams) (s : BTState) (c : Candle) : Bool :=
  !skipBar c && decide (s.position ≠ 0) && exitCond p s c

/-- The number of in-loop position closes along a candle list. -/
def countCloses (p : BTParams) : BTState → List Candle → ℕ
  | _, [] => 0
  | s, c :: cs => (if closeEvent p s c then 1 else 0) + countCloses p (btStep p s c) cs

theorem btStep_trades (p : BTParams) (s : BTState) (c : Candle) :
    (btStep p s c).trades =
      s.trades ++ (if closeEvent p s c then [closingTrade s c] else []) := by
  unfold btStep closeEvent
  by_cases h1 : skipBar c
  · simp [h1]
  · by_cases h2 : s.position ≠ 0
    · by_cases h3 : exitCond p s c
      · simp only [h1, Bool.false_eq_true, if_false]
        simp [h2, h3]
        try (split <;> simp)
      · simp only [h1, Bool.false_eq_true, if_false]
        simp [h2, h3]
        try (split <;> simp)
    · simp only [h1, Bool.false_eq_true, if_false]
      simp [h2]
      try (split <;> simp)

theorem btStep_position_eq (p : BTParams) (s : BTState) (c : Candle) :
    (btStep p s c).position = s.position ∨
    (btStep p s c).position = check_strategy_signal p c := by
  unfold btStep
  by_cases h1 : skipBar c
  · simp [h1]
  · simp only [h1, Bool.false_eq_true, if_false]
    by_cases h2 : s.position ≠ 0
    · by_cases h3 : exitCond p s c
      · by_cases hsig : check_strategy_signal p c = 0
        · right
          simp [h2, h3, hsig]
        · right
          simp [h2, h3, hsig]
      · left
        simp [h2, h3]
    · push_neg at h2
      by_cases hsig : check_strategy_signal p c = 0
      · left
        simp [h2, hsig]
      · right
        simp [h2, hsig]

theorem btStep_posOK (p : BTParams) (s : BTState) (c : Candle)
    (h : s.position = -1 ∨ s.position = 0 ∨ s.position = 1) :
    (btStep p s c).position = -1 ∨ (btStep p s c).position = 0 ∨
    (btStep p s c).position = 1 := by
  rcases btStep_position_eq p s c with he | he
  · rw [he]; exact h
  · rw [he]
    rcases check_strategy_signal_cases p c with hs | hs | hs <;> rw [hs] <;> tauto

theorem foldl_posOK (p : BTParams) :
    ∀ (cs : List Candle) (s : BTState),
      (s.position = -1 ∨ s.position = 0 ∨ s.position = 1) →
      ((cs.foldl (btStep p) s).position = -1 ∨ (cs.foldl (btStep p) s).position = 0 ∨
       (cs.foldl (btStep p) s).position = 1)
  | [], s, h => h
  | c :: cs, s, h => foldl_posOK p cs (btStep p s c) (btStep_posOK p s c h)

theorem foldl_trades_length (p : BTParams) :
    ∀ (cs : List Candle) (s : BTState),
      ((cs.foldl (btStep p) s).trades).length = s.trades.length + countCloses p s cs := by
  intro cs
  induction cs with
  | nil => intro s; simp [countCloses]
  | cons c cs ih =>
      intro s
      simp only [List.foldl_cons, countCloses]
      rw [ih (btStep p s c), btStep_trades, List.length_append]
      by_cases hce : closeEvent p s c <;> simp [hce] <;> omega

/-- Claim C8: after each bar of the backtest loop the simulator's position
is exactly one of SHORT (-1), FLAT (0), LONG (1); while a position is open
and its exit test does not fire, the step neither changes the position nor
records a trade (a new position is opened only from FLAT); and the number
of recorded trades equals the number of completed position cycles: the
in-loop closes, plus the forced end-of-data close when a position is still
open after the loop. -/
theorem C8_single_position_trade_cycles (p : BTParams) (c0 : Candle)
    (pre : List Candle) :
    ((pre.foldl (btStep p) (initState c0)).position = -1 ∨
     (pre.foldl (btStep p) (initState c0)).position = 0 ∨
     (pre.foldl (btStep p) (initState c0)).position = 1) ∧
    (∀ s c, s.position ≠ 0 → exitCond p s c = false →
      (btStep p s c).position = s.position ∧ (btStep p s c).trades = s.trades) ∧
    ((pre.foldl (btStep p) (initState c0)).trades.length =
      countCloses p (initState c0) pre) ∧
    (∀ r, run_backtest p (c0 :: pre) = some r →
      r.trades.length = countCloses p (initState c0) pre +
        (if (pre.foldl (btStep p) (initState c0)).position ≠ 0 then 1 else 0)) := by
  refine ⟨?_, ?_, ?_, ?_⟩
  · exact foldl_posOK p pre (initState c0) (Or.inr (Or.inl rfl))
  · intro s c hpos hex
    unfold btStep
    by_cases h1 : skipBar c
    · simp [h1]
    · simp only [h1, Bool.false_eq_true, if_false]
      constructor
      · simp [hpos, hex]
      · simp [hpos, hex]
  · have h := foldl_trades_length p pre (initState c0)
    simpa [initState] using h
  · intro r hr
    unfold run_backtest at hr
    rw [Option.some.injEq] at hr
    subst hr
    simp only
    unfold finalClose
    have hlen := foldl_trades_length p pre (initState c0)
    have h0 : (initState c0).trades.length = 0 := rfl
    rw [h0] at hlen
    by_cases hpos : (pre.foldl (btStep p) (initState c0)).position ≠ 0
    · rw [if_pos hpos, if_pos hpos]
      simp only [List.length_append, List.length_singleton]
      omega
    · rw [if_neg hpos, if_neg hpos]
      omega

/-- First candle of the C8/C9 witness runs: an evaluated bar with no
signal. -/
def w0 : Candle :=
  { ts := 0, tod := 34000, close := .num 100, rsi := .num 50, ma := .num 100,
    call_delta := .num 0, call_gamma := .num 0, call_theta := .num 0,
    call_vega := .num 0, put_delta := .num 0, put_gamma := .num 0,
    put_theta := .num 0, put_vega := .num 0, india_vix := .num 15 }

/-- Second candle: every long condition of the backtester holds, so a LONG
position opens at close 100. -/
def w1 : Candle :=
  { ts := 1, tod := 34900, close := .num 100, rsi := .num 20, ma := .num 90,
    call_delta := .num (3/5), call_gamma := .num (1/5), call_theta := .num (-1/10),
    call_vega := .num (1/5), put_delta := .num 0, put_gamma := .num 0,
    put_theta := .num 0, put_vega := .num 0, india_vix := .num 15 }

/-- Third candle of the C8 witness: close 98 puts the LONG 2% under water,
beyond the default 1% stop-loss, and no fresh signal fires. -/
def w2 : Candle :=
  { ts := 2, tod := 35800, close := .num 98, rsi := .num 50, ma := .num 98,
    call_delta := .num 0, call_gamma := .num 0, call_theta := .num 0,
    call_vega := .num 0, put_delta := .num 0, put_gamma := .num 0,
    put_theta := .num 0, put_vega := .num 0, india_vix := .num 15 }

/-- The result record of the C8 witness run. -/
def c8res : BTResult :=
  (run_backtest defaultBT [w0, w1, w2]).getD { capital := .num 0, trades := [], equity := [] }

/-- The state after the first step of the C8 witness run: LONG from bar
`w1` at entry price 100. -/
def c8s1 : BTState :=
  { capital := .num 100000, position := 1, entry_price := .num 100, entry_time := 1,
    trades := [],
    equity := [{ ts := 0, equity := .num 100000 }, { ts := 1, equity := .num 100000 }] }

/-- The state after the second step: the stop-loss closed the LONG at 98. -/
def c8s2 : BTState :=
  { capital := .num 99998, position := 0, entry_price := .num 100, entry_time := 1,
    trades := [{ entry_time := 1, exit_time := 2, entry_price := .num 100,
                 exit_price := .num 98, direction := 1, pnl := .num (-2),
                 pnl_percent := .num (-2), exit_reason := .SL }],
    equity := [{ ts := 0, equity := .num 100000 }, { ts := 1, equity := .num 100000 },
               { ts := 2, equity := .num 99998 }] }

theorem c8_step1 : btStep defaultBT (initState w0) w1 = c8s1 := by
  norm_num [btStep, initState, w0, w1, c8s1, skipBar, check_strategy_signal,
    defaultBT, pflt_num, pfadd_num, pfsub_num, pfmul_num]

theorem c8_pnl : pnlPercent (.num 98) (.num 100) 1 = .num (-2) := by
  norm_num [pnlPercent, PFloat.div, pfsub_num, pfmul_num]

theorem c8_step2 : btStep defaultBT c8s1 w2 = c8s2 := by
  norm_num [btStep, c8s1, w2, c8s2, skipBar, check_strategy_signal, exitCond,
    closingTrade, c8_pnl, defaultBT, pflt_num, pfle_num, pfadd_num, pfsub_num, pfmul_num]

/-- Witness for C8 on a concrete three-candle run: one full
FLAT→LONG→FLAT cycle (a stop-loss close), one recorded trade, final
position FLAT, so trades = in-loop closes = 1 with no end-of-data close. -/
theorem C8_single_position_trade_cycles_witness :
    run_backtest defaultBT [w0, w1, w2] = some c8res ∧
    c8res.trades.length = 1 ∧
    countCloses defaultBT (initState w0) [w1, w2] = 1 ∧
    ([w1, w2].foldl (btStep defaultBT) (initState w0)).position = 0 := by
  have hrun : run_backtest defaultBT [w0, w1, w2] = some c8res := rfl
  have hfold : [w1, w2].foldl (btStep defaultBT) (initState w0) = c8s2 := by
    simp only [List.foldl_cons, List.foldl_nil, c8_step1, c8_step2]
  have h := (C8_single_position_trade_cycles defaultBT w0 [w1, w2]).2.2.2 c8res hrun
  have hcc : countCloses defaultBT (initState w0) [w1, w2] = 1 := by
    have h1 : closeEvent defaultBT (initState w0) w1 = false := by
      norm_num [closeEvent, initState]
    have h2 : closeEvent defaultBT c8s1 w2 = true := by
      norm_num [closeEvent, c8s1, w2, skipBar, exitCond, c8_pnl, defaultBT, pfle_num]
    simp [countCloses, h1, h2, c8_step1]
  refine ⟨hrun, ?_, hcc, by rw [hfold]; rfl⟩
  rw [h, hcc, hfold]
  norm_num [c8s2]

/-! Claim C9: the end-of-data close uses the very last candle. -/

/-- Claim C9: when the bar loop ends with an open position, `run_backtest`
closes it at the very last candle's close and timestamp with exit reason
`END` — the forced close carries no trading-hours condition, so it uses
that candle even when the loop skipped it — and appends no equity point,
so the recorded equity curve is exactly the loop's. -/
theorem C9_end_of_data_close (p : BTParams) (c0 : Candle) (rest : List Candle)
    (r : BTResult) (hr : run_backtest p (c0 :: rest) = some r)
    (hpos : (rest.foldl (btStep p) (initState c0)).position ≠ 0) :
    r.trades = (rest.foldl (btStep p) (initState c0)).trades ++
      [{ entry_time := (rest.foldl (btStep p) (initState c0)).entry_time,
         exit_time := (rest.getLastD c0).ts,
         entry_price := (rest.foldl (btStep p) (initState c0)).entry_price,
         exit_price := (rest.getLastD c0).close,
         direction := (rest.foldl (btStep p) (initState c0)).position,
         pnl := PFloat.mul
           (PFloat.sub (rest.getLastD c0).close
             (rest.foldl (btStep p) (initState c0)).entry_price)
           (.num (((rest.foldl (btStep p) (initState c0)).position : ℤ) : ℚ)),
         pnl_percent := pnlPercent (rest.getLastD c0).close
           (rest.foldl (btStep p) (initState c0)).entry_price
           (rest.foldl (btStep p) (initState c0)).position,
         exit_reason := .END }] ∧
    r.equity = (rest.foldl (btStep p) (initState c0)).equity ∧
    r.capital = PFloat.add (rest.foldl (btStep p) (initState c0)).capital
      (PFloat.mul
        (PFloat.sub (rest.getLastD c0).close
          (rest.foldl (btStep p) (initState c0)).entry_price)
        (.num (((rest.foldl (btStep p) (initState c0)).position : ℤ) : ℚ))) := by
  unfold run_backtest at hr
  rw [Option.some.injEq] at hr
  subst hr
  simp only
  unfold finalClose
  rw [if_pos hpos]
  exact ⟨rfl, rfl, rfl⟩

/-- The last candle of the C9 witness run: outside trading hours
(16:40:00), so the loop skips it, with close 120. -/
def c9v2 : Candle :=
  { ts := 2, tod := 60000, close := .num 120, rsi := .num 50, ma := .num 120,
    call_delta := .num 0, call_gamma := .num 0, call_theta := .num 0,
    call_vega := .num 0, put_delta := .num 0, put_gamma := .num 0,
    put_theta := .num 0, put_vega := .num 0, india_vix := .num 15 }

/-- The result record of the C9 witness run. -/
def c9res : BTResult :=
  (run_backtest defaultBT [w0, w1, c9v2]).getD
    { capital := .num 0, trades := [], equity := [] }

/-- The forced end-of-data trade of the C9 witness run. -/
def c9trade : Trade :=
  { entry_time := 1, exit_time := 2, entry_price := .num 100,
    exit_price := .num 120, direction := 1, pnl := .num 20,
    pnl_percent := .num 20, exit_reason := .END }

/-- Witness for C9: a LONG opened at 100 is still open when the loop ends;
the final candle (close 120) is out of hours and was skipped, yet the
forced close exits there, producing capital 100020 while the last recorded
equity point stays 100000 — final equity point and final capital differ. -/
theorem C9_end_of_data_close_witness :
    run_backtest defaultBT [w0, w1, c9v2] = some c9res ∧
    skipBar c9v2 = true ∧
    c9res.equity.getLast? = some { ts := 1, equity := .num 100000 } ∧
    c9res.capital = .num 100020 ∧
    c9res.trades = [c9trade] := by
  have hrun : run_backtest defaultBT [w0, w1, c9v2] = some c9res := rfl
  have hstep : btStep defaultBT c8s1 c9v2 = c8s1 := by
    norm_num [btStep, skipBar, c9v2]
  have hfold : [w1, c9v2].foldl (btStep defaultBT) (initState w0) = c8s1 := by
    simp only [List.foldl_cons, List.foldl_nil, c8_step1, hstep]
  have hlast : List.getLastD [w1, c9v2] w0 = c9v2 := rfl
  have h := C9_end_of_data_close defaultBT w0 [w1, c9v2] c9res hrun
    (by rw [hfold]; norm_num [c8s1])
  rw [hfold, hlast] at h
  have hskip : skipBar c9v2 = true := by norm_num [skipBar, c9v2]
  have hgl : c9res.equity.getLast? = some { ts := 1, equity := .num 100000 } := by
    rw [h.2.1]
    rfl
  have hcap : c9res.capital = .num 100020 := by
    rw [h.2.2]
    norm_num [c8s1, c9v2, pfadd_num, pfsub_num, pfmul_num]
  have htr : c9res.trades = [c9trade] := by
    rw [h.1]
    norm_num [c8s1, c9v2, c9trade, pnlPercent, PFloat.div, pfadd_num, pfsub_num,
      pfmul_num]
  exact ⟨hrun, hskip, hgl, hcap, htr⟩

/-! Claims C7 and C10: behaviour on NaN prices. -/

theorem pfadd_nan_right (x : PFloat) : PFloat.add x .nan = .nan := by
  cases x <;> rfl

/-- A NaN close makes both MA comparisons false, so no signal fires. -/
theorem check_strategy_signal_nan_close (p : BTParams) (c : Candle)
    (hc : c.close = PFloat.nan) : check_strategy_signal p c = 0 := by
  unfold check_strategy_signal
  dsimp only
  rw [hc]
  simp [pflt_nan_right, pflt_nan_left]

/-- A NaN current price propagates to a NaN percentage P&L. -/
theorem pnlPercent_nan (e : PFloat) (pos : ℤ) :
    pnlPercent PFloat.nan e pos = PFloat.nan := by
  unfold pnlPercent
  rw [pfdiv_nan_left, pfsub_nan_left, pfmul_nan_left, pfmul_nan_left]

/-- On a NaN close the loop body leaves position, trades and capital
untouched: the exit comparisons are false and no signal fires. -/
theorem btStep_nan_silent (p : BTParams) (s : BTState) (c : Candle)
    (hc : c.close = PFloat.nan) :
    (btStep p s c).position = s.position ∧ (btStep p s c).trades = s.trades ∧
    (btStep p s c).capital = s.capital := by
  unfold btStep
  by_cases h1 : skipBar c
  · simp [h1]
  · have hsig := check_strategy_signal_nan_close p c hc
    have hex : exitCond p s c = false := by
      unfold exitCond
      rw [hc, pnlPercent_nan]
      simp [pfle_nan_left, pfle_nan_right]
    simp only [h1, Bool.false_eq_true, if_false]
    by_cases h2 : s.position ≠ 0
    · simp [h2, hex, hsig]
    · simp [h2, hsig]

/-- The forced end-of-data close never appends an equity point. -/
theorem finalClose_equity (l : Candle) (s : BTState) :
    (finalClose l s).equity = s.equity := by
  unfold finalClose
  split <;> rfl

/-- First candle of the C7 counterexample run (timestamp 10). -/
def j0 : Candle :=
  { ts := 10, tod := 34000, close := .num 100, rsi := .num 50, ma := .num 100,
    call_delta := .num 0, call_gamma := .num 0, call_theta := .num 0,
    call_vega := .num 0, put_delta := .num 0, put_gamma := .num 0,
    put_theta := .num 0, put_vega := .num 0, india_vix := .num 15 }

/-- Second candle: timestamp 5 — before its predecessor — and a long
entry at close 100. -/
def j1 : Candle :=
  { ts := 5, tod := 34900, close := .num 100, rsi := .num 20, ma := .num 90,
    call_delta := .num (3/5), call_gamma := .num (1/5), call_theta := .num (-1/10),
    call_vega := .num (1/5), put_delta := .num 0, put_gamma := .num 0,
    put_theta := .num 0, put_vega := .num 0, india_vix := .num 15 }

/-- Third candle: timestamp 3 and a NaN close price. -/
def j2 : Candle :=
  { ts := 3, tod := 35800, close := PFloat.nan, rsi := .num 50, ma := .num 100,
    call_delta := .num 0, call_gamma := .num 0, call_theta := .num 0,
    call_vega := .num 0, put_delta := .num 0, put_gamma := .num 0,
    put_theta := .num 0, put_vega := .num 0, india_vix := .num 15 }

/-- The result record of the C7 counterexample run. -/
def c7res : BTResult :=
  (run_backtest defaultBT [j0, j1, j2]).getD
    { capital := .num 0, trades := [], equity := [] }

/-- The state after the j1 entry of the C7 run. -/
def c7s1 : BTState :=
  { capital := .num 100000, position := 1, entry_price := .num 100, entry_time := 5,
    trades := [],
    equity := [{ ts := 10, equity := .num 100000 }, { ts := 5, equity := .num 100000 }] }

/-- The state after the NaN bar j2: only a NaN equity point was added. -/
def c7s2 : BTState :=
  { capital := .num 100000, position := 1, entry_price := .num 100, entry_time := 5,
    trades := [],
    equity := [{ ts := 10, equity := .num 100000 }, { ts := 5, equity := .num 100000 },
               { ts := 3, equity := PFloat.nan }] }

theorem c7_step1 : btStep defaultBT (initState j0) j1 = c7s1 := by
  norm_num [btStep, initState, j0, j1, c7s1, skipBar, check_strategy_signal,
    defaultBT, pflt_num, pfadd_num, pfsub_num, pfmul_num]

/-- On a NaN close with an open position at an evaluated bar, the step
only appends a NaN equity point. -/
theorem btStep_nan_open (p : BTParams) (s : BTState) (c : Candle)
    (hc : c.close = PFloat.nan) (hskip : skipBar c = false)
    (hpos : s.position ≠ 0) :
    btStep p s c = { s with equity := s.equity ++ [{ ts := c.ts, equity := PFloat.nan }] } := by
  have hsig := check_strategy_signal_nan_close p c hc
  have hex : exitCond p s c = false := by
    unfold exitCond
    rw [hc, pnlPercent_nan]
    simp [pfle_nan_left, pfle_nan_right]
  unfold btStep
  simp [hskip, hpos, hex, hsig, hc, pfsub_nan_left, pfmul_nan_left, pfadd_nan_right]

theorem c7_step2 : btStep defaultBT c7s1 j2 = c7s2 := by
  rw [btStep_nan_open defaultBT c7s1 j2 rfl (by norm_num [skipBar, j2])
    (by norm_num [c7s1])]
  norm_num [c7s1, c7s2, j2]

/-- Counterexample to claim C7: a candle list with decreasing timestamps
and a NaN close is processed to completion — the run returns a result, the
NaN bar is silently absorbed into the equity curve, and no error of any
kind is raised, instead of the claimed fail-fast on malformed input. -/
theorem C7_counterexample :
    (run_backtest defaultBT [j0, j1, j2]).isSome = true ∧
    j1.ts < j0.ts ∧ j2.ts < j1.ts ∧
    j2.close = PFloat.nan ∧
    c7res.equity.getLast? = some { ts := 3, equity := PFloat.nan } := by
  refine ⟨rfl, by decide, by decide, rfl, ?_⟩
  have hfold : [j1, j2].foldl (btStep defaultBT) (initState j0) = c7s2 := by
    simp only [List.foldl_cons, List.foldl_nil, c7_step1, c7_step2]
  have he : c7res.equity =
      (finalClose (List.getLastD [j1, j2] j0)
        ([j1, j2].foldl (btStep defaultBT) (initState j0))).equity := rfl
  rw [he, finalClose_equity, hfold]
  rfl

/-- Claim C7 (amended): the simulator never fails mid-run on any input —
malformed candles included.  It performs no timestamp or NaN validation:
a run over any nonempty candle list yields a result, and a NaN close is
silently skipped over (no exit, no entry, no trade, capital unchanged)
rather than reported. -/
theorem C7_amended (p : BTParams) (candles : List Candle) (h : candles ≠ []) :
    (run_backtest p candles).isSome = true ∧
    (∀ s c, c.close = PFloat.nan →
      (btStep p s c).position = s.position ∧ (btStep p s c).trades = s.trades ∧
      (btStep p s c).capital = s.capital) := by
  constructor
  · cases candles with
    | nil => exact absurd rfl h
    | cons c0 rest => rfl
  · intro s c hc
    exact btStep_nan_silent p s c hc

/-- Witness for C7 (amended) on the concrete malformed run and its NaN
bar. -/
theorem C7_amended_witness :
    (run_backtest defaultBT [j0, j1, j2]).isSome = true ∧
    (btStep defaultBT c7s1 j2).position = c7s1.position ∧
    (btStep defaultBT c7s1 j2).trades = c7s1.trades :=
  ⟨(C7_amended defaultBT [j0, j1, j2] (by simp)).1,
   ((C7_amended defaultBT [j0, j1, j2] (by simp)).2 c7s1 j2 rfl).1,
   ((C7_amended defaultBT [j0, j1, j2] (by simp)).2 c7s1 j2 rfl).2.1⟩

/-- The NaN-close final candle of the C10 counterexample run. -/
def k2 : Candle :=
  { ts := 2, tod := 35800, close := PFloat.nan, rsi := .num 50, ma := .num 100,
    call_delta := .num 0, call_gamma := .num 0, call_theta := .num 0,
    call_vega := .num 0, put_delta := .num 0, put_gamma := .num 0,
    put_theta := .num 0, put_vega := .num 0, india_vix := .num 15 }

/-- The state after the NaN bar k2 of the C10 run. -/
def c10s2 : BTState :=
  { capital := .num 100000, position := 1, entry_price := .num 100, entry_time := 1,
    trades := [],
    equity := [{ ts := 0, equity := .num 100000 }, { ts := 1, equity := .num 100000 },
               { ts := 2, equity := PFloat.nan }] }

/-- The result record of the C10 counterexample run. -/
def c10res : BTResult :=
  (run_backtest defaultBT [w0, w1, k2]).getD
    { capital := .num 0, trades := [], equity := [] }

theorem c10_step2 : btStep defaultBT c8s1 k2 = c10s2 := by
  rw [btStep_nan_open defaultBT c8s1 k2 rfl (by norm_num [skipBar, k2])
    (by norm_num [c8s1])]
  norm_num [c8s1, c10s2, k2]

/-- Counterexample to claim C10: the run opens a LONG at 100 and is forced
to close it at the final candle's NaN price; the single recorded trade has
a NaN P&L, so it counts neither as winning (`pnl > 0` is false) nor as
losing (`pnl <= 0` is false), and winningTrades + losingTrades = 0 while
totalTrades = 1. -/
theorem C10_counterexample :
    run_backtest defaultBT [w0, w1, k2] = some c10res ∧
    c10res.trades.length = 1 ∧
    winning_trades c10res.trades = 0 ∧
    losing_trades c10res.trades = 0 := by
  have hfold : [w1, k2].foldl (btStep defaultBT) (initState w0) = c10s2 := by
    simp only [List.foldl_cons, List.foldl_nil, c8_step1, c10_step2]
  have htr : c10res.trades =
      (finalClose (List.getLastD [w1, k2] w0)
        ([w1, k2].foldl (btStep defaultBT) (initState w0))).trades := rfl
  rw [show List.getLastD [w1, k2] w0 = k2 from rfl, hfold] at htr
  have hnan : (finalClose k2 c10s2).trades =
      [{ entry_time := 1, exit_time := 2, entry_price := .num 100,
         exit_price := PFloat.nan, direction := 1, pnl := PFloat.nan,
         pnl_percent := PFloat.nan, exit_reason := .END }] := by
    unfold finalClose
    rw [if_pos (by norm_num [c10s2])]
    norm_num [c10s2, k2, pfsub_nan_left, pfmul_nan_left, pnlPercent_nan]
  rw [hnan] at htr
  refine ⟨rfl, ?_, ?_, ?_⟩
  · rw [htr]
    rfl
  · rw [htr]
    simp [winning_trades, pflt_nan_right]
  · rw [htr]
    simp [losing_trades, pfle_nan_left]

/-- A non-NaN float P&L is counted exactly once across the winning test
`0 < pnl` and the losing test `pnl ≤ 0`. -/
theorem pf_sign_count (x : PFloat) (hx : x.isNan = false) :
    ((if PFloat.lt (.num 0) x = true then 1 else 0) +
     (if PFloat.le x (.num 0) = true then 1 else 0) : ℕ) = 1 := by
  cases x with
  | num q =>
      by_cases h : 0 < q
      · rw [pflt_num, pfle_num]
        simp [h, not_le.mpr h]
      · rw [pflt_num, pfle_num]
        simp [h, not_lt.mp h]
  | inf => rfl
  | ninf => rfl
  | nan => simp [PFloat.isNan] at hx

theorem win_lose_partition : ∀ trades : List Trade,
    (∀ t ∈ trades, t.pnl.isNan = false) →
    winning_trades trades + losing_trades trades = trades.length
  | [], _ => rfl
  | t :: ts, h => by
      have ht := h t (List.mem_cons_self t ts)
      have hrest : ∀ x ∈ ts, x.pnl.isNan = false :=
        fun x hx => h x (List.mem_cons_of_mem t hx)
      have ih := win_lose_partition ts hrest
      have haux := pf_sign_count t.pnl ht
      unfold winning_trades losing_trades at ih ⊢
      rw [List.countP_cons, List.countP_cons, List.length_cons]
      by_cases h1 : PFloat.lt (.num 0) t.pnl = true <;>
        by_cases h2 : PFloat.le t.pnl (.num 0) = true <;>
        simp [h1, h2] at haux ⊢ <;>
        omega

/-- Claim C10 (amended): a trade is counted winning iff `pnl > 0` and
losing iff `pnl ≤ 0`, so a zero-P&L trade counts as losing; and
winningTrades + losingTrades = totalTrades holds whenever every trade's
P&L is a number — which a NaN price in the candle input can violate, the
NaN-P&L trade counting as neither. -/
theorem C10_amended (trades : List Trade)
    (h : ∀ t ∈ trades, t.pnl.isNan = false) :
    winning_trades trades + losing_trades trades = trades.length ∧
    (∀ t ∈ trades, t.pnl = .num 0 →
      PFloat.le t.pnl (.num 0) = true ∧ PFloat.lt (.num 0) t.pnl = false) := by
  refine ⟨win_lose_partition trades h, ?_⟩
  intro t _ hp
  rw [hp, pfle_num, pflt_num]
  norm_num

/-- A zero-P&L trade for the C10 witness. -/
def c10tA : Trade :=
  { entry_time := 0, exit_time := 1, entry_price := .num 100, exit_price := .num 100,
    direction := 1, pnl := .num 0, pnl_percent := .num 0, exit_reason := .TP }

/-- A profitable trade for the C10 witness. -/
def c10tB : Trade :=
  { entry_time := 2, exit_time := 3, entry_price := .num 100, exit_price := .num 105,
    direction := 1, pnl := .num 5, pnl_percent := .num 5, exit_reason := .TP }

/-- Witness for C10 (amended) on a concrete two-trade list: the zero-P&L
trade is losing and not winning, and 1 winner + 1 loser = 2 trades. -/
theorem C10_amended_witness :
    winning_trades [c10tA, c10tB] + losing_trades [c10tA, c10tB] = 2 ∧
    PFloat.le c10tA.pnl (.num 0) = true ∧
    PFloat.lt (.num 0) c10tA.pnl = false := by
  have h := C10_amended [c10tA, c10tB]
    (by
      intro t ht
      simp only [List.mem_cons, List.not_mem_nil, or_false] at ht
      rcases ht with rfl | rfl <;> rfl)
  refine ⟨by simpa using h.1, ?_, ?_⟩
  · exact (h.2 c10tA (by simp) rfl).1
  · exact (h.2 c10tA (by simp) rfl).2
